import Mathlib

/-!
Verification of the amazonscraper repository (src/amazonscraper.py) against its
natural-language specification.

The Python source is shallowly embedded:
strings are `List Char` (or `String`, a wrapper around `List Char`),
`urllib.parse.urlparse` is modelled faithfully for inputs free of the
tab/newline/control characters that Python removes before parsing,
the rendered page handed to `scrape_amazon_product` is modelled as a structure
recording the outcome of each of the fixed selector queries the function makes,
and the batch/retry loops are modelled with oracles giving the outcome of each
scrape attempt.  Exceptions are modelled explicitly: an uncaught exception is a
distinguished `raised` outcome.
-/

namespace AmazonScraper

/-- ASCII letter test (Python `c.isascii() and c.isalpha()`). -/
def asciiAlpha (c : Char) : Bool :=
  decide ((65 ≤ c.toNat ∧ c.toNat ≤ 90) ∨ (97 ≤ c.toNat ∧ c.toNat ≤ 122))

/-- Characters allowed in a URL scheme (`urllib.parse.scheme_chars`):
ASCII letters, digits, and `+`, `-`, `.`. -/
def schemeChar (c : Char) : Bool :=
  asciiAlpha c || decide (48 ≤ c.toNat ∧ c.toNat ≤ 57) ||
    decide (c.toNat = 43 ∨ c.toNat = 45 ∨ c.toNat = 46)

/-- Python `sep in s` (contiguous substring containment), for strings. -/
def containsSub (sep : List Char) : List Char → Bool
  | [] => sep.isEmpty
  | c :: rest => List.isPrefixOf sep (c :: rest) || containsSub sep rest

/-- Python `s.split(sep)[0]`: the part of `s` before the first occurrence of
the (nonempty) separator `sep`, or all of `s` when `sep` does not occur. -/
def takeBeforeSub (sep : List Char) : List Char → List Char
  | [] => []
  | c :: rest =>
    if List.isPrefixOf sep (c :: rest) then []
    else c :: takeBeforeSub sep rest

/-- Python `s.rstrip(ch)`: remove all trailing occurrences of `ch`. -/
def rstripChar (ch : Char) (s : List Char) : List Char :=
  (s.reverse.dropWhile (fun c => c = ch)).reverse

/-- Python `s.find(ch)`-and-split: `some (before, after)` when `ch` occurs,
splitting at its first occurrence; `none` when it does not occur. -/
def breakAt (ch : Char) : List Char → Option (List Char × List Char)
  | [] => none
  | c :: rest =>
    if c = ch then some ([], rest)
    else
      match breakAt ch rest with
      | none => none
      | some (a, b) => some (c :: a, b)

/-- Python `str.lower`, per character (the inputs we care about are ASCII). -/
def lowerL (s : List Char) : List Char := s.map Char.toLower

structure ParsedUrl where
  scheme : List Char
  netloc : List Char
  path : List Char
  params : List Char
  query : List Char
  fragment : List Char
deriving DecidableEq, Repr

/-- Scheme extraction: `(scheme, rest)`. -/
def splitScheme (u : List Char) : List Char × List Char :=
  match breakAt ':' u with
  | none => ([], u)
  | some (pre, post) =>
    match pre with
    | [] => ([], u)
    | c :: cs =>
      if asciiAlpha c && (c :: cs).all schemeChar then (lowerL (c :: cs), post)
      else ([], u)

/-- A character that ends the netloc. -/
def netlocEnd (c : Char) : Bool := c = '/' || c = '?' || c = '#'

/-- Netloc extraction: `(netloc, rest)`; a netloc is present only after `//`. -/
def splitNetloc (u : List Char) : List Char × List Char :=
  match u with
  | '/' :: '/' :: rest =>
    (rest.takeWhile (fun c => ! netlocEnd c), rest.dropWhile (fun c => ! netlocEnd c))
  | _ => ([], u)

/-- Fragment extraction: `(rest, fragment)`. -/
def splitFragment (u : List Char) : List Char × List Char :=
  match breakAt '#' u with
  | none => (u, [])
  | some (a, b) => (a, b)

/-- Query extraction: `(rest, query)`. -/
def splitQuery (u : List Char) : List Char × List Char :=
  match breakAt '?' u with
  | none => (u, [])
  | some (a, b) => (a, b)

/-- Params extraction from the path (`urllib.parse._splitparams`):
split at the first `;` of the last `/`-separated segment. -/
def splitParams (p : List Char) : List Char × List Char :=
  if p.contains '/' then
    match breakAt ';' ((p.reverse.takeWhile (fun c => ¬ (c = '/'))).reverse) with
    | none => (p, [])
    | some (a, b) => ((p.reverse.dropWhile (fun c => ¬ (c = '/'))).reverse ++ a, b)
  else
    match breakAt ';' p with
    | none => (p, [])
    | some (a, b) => (a, b)

/-- Model of `urllib.parse.urlparse`. -/
def urlparse (u : List Char) : ParsedUrl :=
  let s1 := splitScheme u
  let s2 := splitNetloc s1.2
  let s3 := splitFragment s2.2
  let s4 := splitQuery s3.1
  let s5 := splitParams s4.1
  ⟨s1.1, s2.1, s5.1, s5.2, s4.2, s3.2⟩

/-- The separator `"/ref"` whose first occurrence (and everything after it)
`clean_url` removes from the path. -/
def slashRef : List Char := ['/', 'r', 'e', 'f']

/-- The cleaned path: `parsed_url.path.split("/ref")[0].rstrip("/")`. -/
def cleanPathOf (p : List Char) : List Char :=
  rstripChar '/' (takeBeforeSub slashRef p)

/-- Python `s.endswith("/")`. -/
def endsWithSlash (s : List Char) : Bool := s.getLast? = some '/'

/-- Model of `clean_url` (src/amazonscraper.py lines 74-82):
rebuild `f"{scheme}://{netloc}{clean_path}"` and append `"/"` unless the
cleaned path already ends in `"/"`. -/
def clean_url (u : List Char) : List Char :=
  let p := urlparse u
  let cp := cleanPathOf p.path
  let base := p.scheme ++ [':', '/', '/'] ++ p.netloc ++ cp
  if endsWithSlash cp then base else base ++ ['/']

/-- `clean_url` on `String`s. -/
def cleanUrlS (u : String) : String := String.mk (clean_url u.toList)

/-- Validity of a scheme as `splitScheme` recognizes and normalizes it. -/
def schemeOk (s : List Char) : Prop :=
  s ≠ [] ∧ asciiAlpha (s.headD ' ') = true ∧ s.all schemeChar = true ∧ lowerL s = s

inductive Value where
  | str (s : String)
  | nan
deriving DecidableEq, Repr

/-- The error sentinel `"#ERROR"`. -/
def errorV : Value := .str "#ERROR"

/-- The not-present sentinel `"NA"`. -/
def naV : Value := .str "NA"

/-- The record built by `scrape_amazon_product` (fourteen fields). -/
structure Record where
  url : Value
  title : Value
  author : Value
  format : Value
  summary : Value
  printLength : Value
  asin : Value
  publisher : Value
  pubDate : Value
  bestSellersRank : Value
  rating : Value
  numRatings : Value
  goodreadsRating : Value
  goodreadsNumRatings : Value
deriving DecidableEq, Repr

/-- Model of `is_valid_product_data` (src/amazonscraper.py lines 343-351):
at least 3 of the 5 important fields (Title, Author, Format, ASIN,
Amazon Rating) differ from the `"#ERROR"` sentinel. -/
def is_valid_product_data (r : Record) : Bool :=
  decide (3 ≤ List.countP (fun v => v != errorV)
    [r.title, r.author, r.format, r.asin, r.rating])

structure GoodreadsSection where
  ratingSpanText : Option String
  countSpanText : Option String
deriving DecidableEq, Repr

structure Page where
  source : List Char
  productTitle : Option String
  bylineAuthor : Option String
  bylineFormat : Option String
  expanderContent : Option String
  printLengthSpan : Option String
  asinLabel : Option (Option String)
  publisherLabel : Option (Option String)
  pubDateSpan : Option String
  rankItem : Option String
  ratingIcon : Option String
  reviewCount : Option String
  goodreads : Option GoodreadsSection
deriving DecidableEq, Repr

/-- The challenge keyword. -/
def captchaKeyword : List Char := ['c', 'a', 'p', 't', 'c', 'h', 'a']

/-- Model of `check_for_captcha` (src/amazonscraper.py lines 386-392):
`"captcha" in driver.page_source.lower()`. -/
def check_for_captcha (source : List Char) : Bool :=
  containsSub captchaKeyword (lowerL source)

/-- Python `s.split()` (split on whitespace runs, dropping empty tokens). -/
def pySplitAux (acc : List Char) : List Char → List (List Char)
  | [] => if acc.isEmpty then [] else [acc.reverse]
  | c :: rest =>
    if c.isWhitespace then
      if acc.isEmpty then pySplitAux [] rest
      else acc.reverse :: pySplitAux [] rest
    else pySplitAux (c :: acc) rest

def pySplit (s : List Char) : List (List Char) := pySplitAux [] s

/-- Python `s.split()[0]` as an `Option` (`none` is the `IndexError` case). -/
def firstToken (s : String) : Option String :=
  (pySplit s.toList).head?.map String.mk

/-- Python `s.replace(",", "")`. -/
def removeCommas (s : String) : String :=
  String.mk (s.toList.filter (fun c => ¬ (c = ',')))

/-- The Goodreads block (src/amazonscraper.py lines 116-139): section absent
gives `np.nan` for both fields; any exception inside the block (a failing
inner lookup chain, or `IndexError` from `.split()[0]` on empty text) is
caught by the blanket `except Exception` and gives `"#ERROR"` for both. -/
def goodreadsExtract : Option GoodreadsSection → Value × Value
  | none => (.nan, .nan)
  | some g =>
    match g.ratingSpanText, g.countSpanText with
    | some rt, some ct =>
      match firstToken (removeCommas ct) with
      | some tok => (.str rt, .str tok)
      | none => (errorV, errorV)
    | _, _ => (errorV, errorV)

/-- Title rule (line 143): missing element raises `AttributeError`, caught. -/
def extractTitle (p : Page) : Value :=
  match p.productTitle with
  | some t => .str t
  | none => errorV

def extractAuthor (p : Page) : Value :=
  match p.bylineAuthor with
  | some t => .str t
  | none => errorV

def extractFormat (p : Page) : Value :=
  match p.bylineFormat with
  | some t => .str t
  | none => errorV

/-- Summary rule (lines 159-163): tests for `None` explicitly, so a missing
element gives `"NA"`, not the error sentinel. -/
def extractSummary (p : Page) : Value :=
  match p.expanderContent with
  | some t => .str t
  | none => naV

/-- Print-length rule (lines 165-175): missing element gives `"NA"`; a found
element whose text has no whitespace token makes `.split()[0]` raise
`IndexError`, which `except AttributeError` does not catch — it propagates. -/
def extractPrintLength (p : Page) : Except Unit Value :=
  match p.printLengthSpan with
  | none => .ok naV
  | some t =>
    match firstToken t with
    | some tok => .ok (.str tok)
    | none => .error ()

/-- ASIN rule (lines 177-185): label absent gives `"NA"`; label present but
`find_next` failing raises `AttributeError`, caught, giving `"#ERROR"`. -/
def extractAsin (p : Page) : Value :=
  match p.asinLabel with
  | none => naV
  | some none => errorV
  | some (some t) => .str t

def extractPublisher (p : Page) : Value :=
  match p.publisherLabel with
  | none => naV
  | some none => errorV
  | some (some t) => .str t

/-- Publication-date rule (lines 199-212): missing element gives `"NA"`;
otherwise the text is run through the date parser (pandas `to_datetime` +
`strftime`, modelled abstractly by `dp`) unless it is literally `"NA"`;
a parse failure raises `ValueError`, caught, giving `"#ERROR"`. -/
def extractPubDate (dp : String → Option String) (p : Page) : Value :=
  match p.pubDateSpan with
  | none => naV
  | some t =>
    if t = "NA" then .str "NA"
    else
      match dp t with
      | some d => .str d
      | none => errorV

def extractRank (p : Page) : Value :=
  match p.rankItem with
  | some t => .str t
  | none => errorV

/-- Rating rule (lines 221-224): missing element raises `AttributeError`,
caught, giving `"#ERROR"`; a found element with token-less text raises an
uncaught `IndexError` from `.split()[0]`. -/
def extractRating (p : Page) : Except Unit Value :=
  match p.ratingIcon with
  | none => .ok errorV
  | some t =>
    match firstToken t with
    | some tok => .ok (.str tok)
    | none => .error ()

def extractNumRatings (p : Page) : Except Unit Value :=
  match p.reviewCount with
  | none => .ok errorV
  | some t =>
    match firstToken t with
    | some tok => .ok (.str tok)
    | none => .error ()

/-- Outcome of one `scrape_amazon_product` call: the `"CAPTCHA"` sentinel,
an uncaught exception, or a record. -/
inductive ScrapeResult where
  | captcha
  | raised
  | ok (r : Record)
deriving DecidableEq, Repr

/-- Model of `scrape_amazon_product` (src/amazonscraper.py lines 86-253),
parametrized by the abstract date parser `dp`.  The `Except` sequencing
mirrors the source's straight-line order: the three `.split()[0]` rules can
raise an uncaught `IndexError` which aborts the whole extraction. -/
def scrape_amazon_product (dp : String → Option String) (p : Page) (url : String) :
    ScrapeResult :=
  if check_for_captcha p.source then .captcha
  else
    match (do
      let gr := goodreadsExtract p.goodreads
      let printLength ← extractPrintLength p
      let rating ← extractRating p
      let numRatings ← extractNumRatings p
      pure { url := .str (cleanUrlS url)
             title := extractTitle p
             author := extractAuthor p
             format := extractFormat p
             summary := extractSummary p
             printLength := printLength
             asin := extractAsin p
             publisher := extractPublisher p
             pubDate := extractPubDate dp p
             bestSellersRank := extractRank p
             rating := rating
             numRatings := numRatings
             goodreadsRating := gr.1
             goodreadsNumRatings := gr.2 } : Except Unit Record) with
    | .ok r => .ok r
    | .error _ => .raised

def attemptFails : ScrapeResult → Bool
  | .ok r => ! is_valid_product_data r
  | _ => true

/-- The inner `for attempt in range(max_retries)` loop for one URL: returns
the accepted record (if any) and the number of attempts actually made.
`i` is the index of the next attempt, `fuel` the number of attempts left. -/
def retryOne (oracle : Nat → ScrapeResult) : Nat → Nat → Option Record × Nat
  | _, 0 => (none, 0)
  | i, fuel + 1 =>
    match oracle i with
    | .ok r =>
      if is_valid_product_data r then (some r, 1)
      else
        ((retryOne oracle (i + 1) fuel).1, (retryOne oracle (i + 1) fuel).2 + 1)
    | _ => ((retryOne oracle (i + 1) fuel).1, (retryOne oracle (i + 1) fuel).2 + 1)

/-- Model of `retry_failed_urls`: per failed URL, up to `maxRetries` fresh
scrape attempts; a validating record is appended to the output and stops the
attempts; URLs never validating are collected and, when the collection is
nonempty, persisted (`failed_urls.csv`).  Returns the appended `(url, record)`
rows in order and the persisted failure list (`none` when nothing is written). -/
def retry_failed_urls (oracle : String → Nat → ScrapeResult)
    (failed_urls : List String) (maxRetries : Nat) :
    List (String × Record) × Option (List String) :=
  let written := failed_urls.filterMap
    (fun u => (retryOne (oracle u) 0 maxRetries).1.map (fun r => (u, r)))
  let failures := (failed_urls.filter
    (fun u => (retryOne (oracle u) 0 maxRetries).1.isNone))
  (written, if failures.isEmpty then none else some failures)

structure TargetEnv where
  preCheck1 : Bool
  preCheck2 : Bool
  scrape1 : ScrapeResult
  scrape2 : ScrapeResult
deriving DecidableEq, Repr

structure BatchState where
  written : List Record
  failed : List String
deriving DecidableEq, Repr

/-- One main-pass loop iteration for target `u` (lines 288-335).  Returns
`none` when the body executes `return "CAPTCHA"` (challenge detected again
right after the pre-scrape resolution cycle), else the updated state and the
number of `scrape_amazon_product` calls made.  A `"CAPTCHA"` outcome of the
post-resolution rescrape makes `is_valid_product_data` raise `TypeError`,
caught by the `except`, so the target just joins the failure set. -/
def processTarget (env : TargetEnv) (st : BatchState) (u : String) :
    Option (BatchState × Nat) :=
  if env.preCheck1 && env.preCheck2 then none
  else
    match (if env.scrape1 = ScrapeResult.captcha then env.scrape2 else env.scrape1),
        (if env.scrape1 = ScrapeResult.captcha then 2 else 1) with
    | .ok r, calls =>
      if is_valid_product_data r then
        some ({ st with written := st.written ++ [r] }, calls)
      else some ({ st with failed := st.failed ++ [u] }, calls)
    | _, calls => some ({ st with failed := st.failed ++ [u] }, calls)

/-- Result of a `scrape_amazon` run. -/
structure BatchResult where
  written : List Record
  persistedFailures : Option (List String)
  abortedEarly : Bool
  failedSet : List String
deriving DecidableEq, Repr

/-- Model of `scrape_amazon`: main pass over the targets; on normal
completion, a retry pass (`retry_failed_urls` with its default
`max_retries = 3`) over the accumulated failure set (if nonempty); on
`return "CAPTCHA"` the run ends immediately — no retry pass, and the failure
set is NOT persisted. -/
def scrape_amazon (env : String → TargetEnv)
    (retryOracle : String → Nat → ScrapeResult) :
    List String → BatchState → BatchResult
  | [], st =>
    if st.failed.isEmpty then ⟨st.written, none, false, st.failed⟩
    else
      ⟨st.written ++ ((retry_failed_urls retryOracle st.failed 3).1.map Prod.snd),
        (retry_failed_urls retryOracle st.failed 3).2, false, st.failed⟩
  | u :: rest, st =>
    match processTarget (env u) st u with
    | none => ⟨st.written, none, true, st.failed⟩
    | some (st2, _) => scrape_amazon env retryOracle rest st2

/-- The twelve fallible extraction rules (the URL field never fails; the
Goodreads block is one rule feeding two fields). -/
inductive Rule where
  | goodreads
  | title
  | author
  | format
  | summary
  | printLength
  | asin
  | publisher
  | pubDate
  | rank
  | rating
  | numRatings
deriving DecidableEq, Repr

/-- Make the given rule fail on the page: the rule's element lookup comes up
empty (for the Goodreads block: the section is present but its inner lookup
chain fails, i.e. the block raises). -/
def failAt (p : Page) : Rule → Page
  | .goodreads => { p with goodreads := some ⟨none, none⟩ }
  | .title => { p with productTitle := none }
  | .author => { p with bylineAuthor := none }
  | .format => { p with bylineFormat := none }
  | .summary => { p with expanderContent := none }
  | .printLength => { p with printLengthSpan := none }
  | .asin => { p with asinLabel := none }
  | .publisher => { p with publisherLabel := none }
  | .pubDate => { p with pubDateSpan := none }
  | .rank => { p with rankItem := none }
  | .rating => { p with ratingIcon := none }
  | .numRatings => { p with reviewCount := none }

/-- Overwrite the rule's field(s) of a record with the sentinel the rule's
failure produces (`"#ERROR"` or `"NA"`, depending on the rule). -/
def ruleSentinel (r : Record) : Rule → Record
  | .goodreads => { r with goodreadsRating := errorV, goodreadsNumRatings := errorV }
  | .title => { r with title := errorV }
  | .author => { r with author := errorV }
  | .format => { r with format := errorV }
  | .summary => { r with summary := naV }
  | .printLength => { r with printLength := naV }
  | .asin => { r with asin := naV }
  | .publisher => { r with publisher := naV }
  | .pubDate => { r with pubDate := naV }
  | .rank => { r with bestSellersRank := errorV }
  | .rating => { r with rating := errorV }
  | .numRatings => { r with numRatings := errorV }

/-- A record with all five important fields valid. -/
def sampleRecord : Record :=
  { url := .str "https://a/x/", title := .str "T", author := .str "A",
    format := .str "Kindle", summary := naV, printLength := naV,
    asin := .str "B00X", publisher := naV, pubDate := naV,
    bestSellersRank := errorV, rating := .str "4.5", numRatings := errorV,
    goodreadsRating := .nan, goodreadsNumRatings := .nan }

/-- A rendered page with no challenge marker and well-formed elements. -/
def samplePage : Page :=
  { source := ('p' :: 'a' :: 'g' :: 'e' :: []), productTitle := some "T",
    bylineAuthor := some "A", bylineFormat := some "Kindle",
    expanderContent := none, printLengthSpan := some "320 pages",
    asinLabel := some (some "B00X"), publisherLabel := none,
    pubDateSpan := none, rankItem := none,
    ratingIcon := some "4.5 out of 5 stars", reviewCount := some "1,234 ratings",
    goodreads := none }

/-- A date parser stub for concrete evaluations (never consulted on the
concrete pages used, whose date element is absent). -/
def dpNone : String → Option String := fun _ => none

/-- A retry oracle whose every attempt raises. -/
def oracleFail : String → Nat → ScrapeResult := fun _ _ => .raised

/-- A retry oracle raising on the first two attempts, then succeeding. -/
def oracleThird : String → Nat → ScrapeResult := fun _ n =>
  if 2 ≤ n then .ok sampleRecord else .raised

/-- `sampleRecord` with every non-important field set to the error sentinel. -/
def sampleRecordNoisy : Record :=
  { sampleRecord with
    url := errorV
    summary := errorV
    printLength := errorV
    publisher := errorV
    pubDate := errorV
    bestSellersRank := errorV
    numRatings := errorV
    goodreadsRating := errorV
    goodreadsNumRatings := errorV }

/-- Per-target environment for the repeated mid-extraction challenge run:
target `"u1"` yields the `"CAPTCHA"` sentinel from both the main scrape and
the single post-resolution rescrape; target `"u2"` scrapes fine. -/
def envTwoCaptcha : String → TargetEnv := fun u =>
  if u = "u1" then ⟨false, false, .captcha, .captcha⟩
  else ⟨false, false, .ok sampleRecord, .ok sampleRecord⟩

/-- Per-target environment for the batch-fatal run: target `"u1"` raises
during extraction (joining the failure set); target `"u2"` triggers the
pre-scrape challenge check twice in a row (the batch-fatal condition). -/
def envAbort : String → TargetEnv := fun u =>
  if u = "u1" then ⟨false, false, .raised, .raised⟩
  else ⟨true, true, .raised, .raised⟩

/-- The record `scrape_amazon_product` produces on `samplePage`. -/
def samplePageRecord : Record :=
  { url := .str "https://a/x/", title := .str "T", author := .str "A",
    format := .str "Kindle", summary := naV, printLength := .str "320",
    asin := .str "B00X", publisher := naV, pubDate := naV,
    bestSellersRank := errorV, rating := .str "4.5", numRatings := .str "1,234",
    goodreadsRating := .nan, goodreadsNumRatings := .nan }

/-- `samplePage` with the rating element present but carrying token-less
(empty) text, so that the rating rule's `.split()[0]` raises `IndexError`. -/
def samplePageEmptyRating : Page := { samplePage with ratingIcon := some "" }

/-! ### Lemmas and claim theorems -/

theorem char_toNat_ofNat (n : Nat) (h : n.isValidChar) : (Char.ofNat n).toNat = n := by
  unfold Char.ofNat
  rw [dif_pos h]
  rfl

theorem toLower_toNat_of_upper (c : Char) (h : 65 ≤ c.toNat ∧ c.toNat ≤ 90) :
    c.toLower.toNat = c.toNat + 32 := by
  unfold Char.toLower
  rw [if_pos h]
  exact char_toNat_ofNat _ (Or.inl (by omega))

theorem toLower_of_not_upper (c : Char) (h : ¬(65 ≤ c.toNat ∧ c.toNat ≤ 90)) :
    c.toLower = c := by
  unfold Char.toLower
  rw [if_neg h]

theorem toLower_toLower (c : Char) : c.toLower.toLower = c.toLower := by
  by_cases h : 65 ≤ c.toNat ∧ c.toNat ≤ 90
  · have h2 := toLower_toNat_of_upper c h
    exact toLower_of_not_upper _ (by omega)
  · rw [toLower_of_not_upper c h, toLower_of_not_upper c h]

theorem asciiAlpha_toLower (c : Char) (h : asciiAlpha c = true) :
    asciiAlpha c.toLower = true := by
  unfold asciiAlpha at *
  rw [decide_eq_true_eq] at h
  rw [decide_eq_true_eq]
  by_cases hu : 65 ≤ c.toNat ∧ c.toNat ≤ 90
  · have h2 := toLower_toNat_of_upper c hu
    omega
  · rw [toLower_of_not_upper c hu]
    exact h

theorem schemeChar_toLower (c : Char) (h : schemeChar c = true) :
    schemeChar c.toLower = true := by
  unfold schemeChar at *
  rw [Bool.or_eq_true, Bool.or_eq_true] at h ⊢
  rcases h with (ha | hd) | ho
  · exact Or.inl (Or.inl (asciiAlpha_toLower c ha))
  · rw [decide_eq_true_eq] at hd
    rw [toLower_of_not_upper c (by omega)]
    exact Or.inl (Or.inr (by rw [decide_eq_true_eq]; omega))
  · rw [decide_eq_true_eq] at ho
    rw [toLower_of_not_upper c (by omega)]
    exact Or.inr (by rw [decide_eq_true_eq]; omega)

theorem schemeChar_ne_colon (c : Char) (h : schemeChar c = true) : c ≠ ':' := by
  intro he
  subst he
  simp [schemeChar, asciiAlpha] at h

theorem containsSub_iff (sep s : List Char) : containsSub sep s = true ↔ sep <:+: s := by
  induction s with
  | nil =>
    simp [containsSub, List.infix_nil, List.isEmpty_iff]
  | cons c rest ih =>
    simp only [containsSub, Bool.or_eq_true, ih, List.infix_cons_iff,
      List.isPrefixOf_iff_prefix]

theorem takeBeforeSub_pre (sep s : List Char) : takeBeforeSub sep s <+: s := by
  induction s with
  | nil => exact List.nil_prefix
  | cons c rest ih =>
    unfold takeBeforeSub
    by_cases h : List.isPrefixOf sep (c :: rest)
    · rw [if_pos h]; exact List.nil_prefix
    · rw [if_neg h]
      exact (List.cons_prefix_cons).mpr ⟨rfl, ih⟩

theorem takeBeforeSub_of_no_occurrence (sep s : List Char) (h : ¬ sep <:+: s) :
    takeBeforeSub sep s = s := by
  induction s with
  | nil => rfl
  | cons c rest ih =>
    unfold takeBeforeSub
    rw [if_neg, ih]
    · intro hi
      exact h (( List.infix_cons_iff).mpr (Or.inr hi))
    · rw [List.isPrefixOf_iff_prefix]
      intro hp
      exact h (( List.infix_cons_iff).mpr (Or.inl hp))

theorem not_infix_takeBeforeSub (sep s : List Char) (hne : sep ≠ []) :
    ¬ sep <:+: takeBeforeSub sep s := by
  induction s with
  | nil =>
    rw [takeBeforeSub]
    simp [List.infix_nil, hne]
  | cons c rest ih =>
    unfold takeBeforeSub
    by_cases h : List.isPrefixOf sep (c :: rest)
    · rw [if_pos h]
      simp [List.infix_nil, hne]
    · rw [if_neg h]
      intro hi
      rcases ( List.infix_cons_iff).mp hi with hp | hi2
      · rw [List.isPrefixOf_iff_prefix] at h
        exact h (hp.trans ((List.cons_prefix_cons).mpr ⟨rfl, takeBeforeSub_pre sep rest⟩))
      · exact ih hi2

theorem rstripChar_pre (ch : Char) (s : List Char) : rstripChar ch s <+: s := by
  unfold rstripChar
  rw [← List.reverse_suffix]
  simpa using List.dropWhile_suffix (fun c => c = ch) (l := s.reverse)

theorem rstripChar_getLast (ch : Char) (s : List Char) :
    (rstripChar ch s).getLast? ≠ some ch := by
  unfold rstripChar
  rw [List.getLast?_reverse]
  intro h
  have h2 := List.head?_dropWhile_not (fun c => c = ch) s.reverse
  rw [h] at h2
  simp at h2

theorem rstripChar_append (ch : Char) (s : List Char) (h : s.getLast? ≠ some ch) :
    rstripChar ch (s ++ [ch]) = s := by
  unfold rstripChar
  rw [List.reverse_append]
  simp only [List.reverse_cons, List.reverse_nil, List.nil_append, List.cons_append,
    List.dropWhile_cons]
  rw [if_pos (by simp)]
  cases hs : s.reverse with
  | nil =>
    have : s = [] := by simpa using congrArg List.reverse hs
    simp [this]
  | cons a t =>
    have ha : a ≠ ch := by
      intro he
      apply h
      rw [List.getLast?_eq_head?_reverse, hs, he]
      rfl
    rw [List.dropWhile_cons, if_neg (by simpa using ha), ← hs]
    simp

theorem breakAt_eq_none (ch : Char) (s : List Char) (h : ch ∉ s) :
    breakAt ch s = none := by
  induction s with
  | nil => rfl
  | cons c rest ih =>
    have hne : ¬ c = ch := by
      intro he
      subst he
      exact h (List.mem_cons_self c rest)
    simp only [breakAt]
    rw [if_neg hne, ih (fun hm => h (List.mem_cons_of_mem c hm))]

theorem breakAt_ne_none (ch : Char) (s : List Char) (h : ch ∈ s) : breakAt ch s ≠ none := by
  induction s with
  | nil => cases h
  | cons c rest ih =>
    simp only [breakAt]
    by_cases hc : c = ch
    · rw [if_pos hc]
      simp
    · rw [if_neg hc]
      have hm : ch ∈ rest := by
        rcases List.mem_cons.mp h with he | hm
        · exact absurd he.symm hc
        · exact hm
      cases hb : breakAt ch rest with
      | none => exact absurd hb (ih hm)
      | some p => simp

theorem breakAt_eq_some (ch : Char) (s a b : List Char) (h : breakAt ch s = some (a, b)) :
    s = a ++ ch :: b ∧ ch ∉ a := by
  induction s generalizing a b with
  | nil => simp [breakAt] at h
  | cons c rest ih =>
    simp only [breakAt] at h
    by_cases hc : c = ch
    · rw [if_pos hc] at h
      cases h
      subst hc
      exact ⟨rfl, by simp⟩
    · rw [if_neg hc] at h
      cases hb : breakAt ch rest with
      | none => rw [hb] at h; cases h
      | some p =>
        rw [hb] at h
        cases h
        obtain ⟨h1, h2⟩ := ih p.1 p.2 (by rw [hb])
        refine ⟨by rw [List.cons_append, ← h1], ?_⟩
        intro hm
        rcases List.mem_cons.mp hm with he | hm2
        · exact hc he.symm
        · exact h2 hm2

theorem breakAt_append (ch : Char) (pre post : List Char) (h : ch ∉ pre) :
    breakAt ch (pre ++ ch :: post) = some (pre, post) := by
  induction pre with
  | nil => simp [breakAt]
  | cons c rest ih =>
    have hne : ¬ c = ch := by
      intro he
      subst he
      exact h (List.mem_cons_self c rest)
    rw [List.cons_append]
    simp only [breakAt]
    rw [if_neg hne, ih (fun hm => h (List.mem_cons_of_mem c hm))]

theorem lowerL_lowerL (s : List Char) : lowerL (lowerL s) = lowerL s := by
  unfold lowerL
  rw [List.map_map]
  exact List.map_congr_left (fun c _ => toLower_toLower c)

theorem schemeOk_of_splitScheme (u : List Char) (h : (splitScheme u).1 ≠ []) :
    schemeOk (splitScheme u).1 := by
  unfold splitScheme at h ⊢
  cases hb : breakAt ':' u with
  | none => rw [hb] at h; simp at h
  | some p =>
    obtain ⟨pre, post⟩ := p
    rw [hb] at h
    cases pre with
    | nil => simp at h
    | cons c cs =>
      dsimp only at h ⊢
      by_cases hc : (asciiAlpha c && (c :: cs).all schemeChar) = true
      · rw [if_pos hc]
        rw [Bool.and_eq_true] at hc
        refine ⟨by simp [lowerL], ?_, ?_, lowerL_lowerL _⟩
        · simpa [lowerL] using asciiAlpha_toLower c hc.1
        · rw [List.all_eq_true]
          intro x hx
          rw [lowerL, List.mem_map] at hx
          obtain ⟨y, hy, hxy⟩ := hx
          rw [List.all_eq_true] at hc
          exact hxy ▸ schemeChar_toLower y (hc.2 y hy)
      · rw [if_neg hc] at h
        simp at h

theorem splitNetloc_mem (u : List Char) (c : Char) (hc : c ∈ (splitNetloc u).1) :
    netlocEnd c = false := by
  unfold splitNetloc at hc
  split at hc
  · have := List.mem_takeWhile_imp hc
    simpa using this
  · simp at hc

theorem splitFragment_not_mem (u : List Char) : '#' ∉ (splitFragment u).1 := by
  unfold splitFragment
  cases hb : breakAt '#' u with
  | none =>
    intro hm
    exact breakAt_ne_none '#' u hm hb
  | some p => exact (breakAt_eq_some '#' u p.1 p.2 (by rw [hb])).2

theorem splitQuery_not_mem (u : List Char) : '?' ∉ (splitQuery u).1 := by
  unfold splitQuery
  cases hb : breakAt '?' u with
  | none =>
    intro hm
    exact breakAt_ne_none '?' u hm hb
  | some p => exact (breakAt_eq_some '?' u p.1 p.2 (by rw [hb])).2

theorem splitQuery_pre (u : List Char) : (splitQuery u).1 <+: u := by
  unfold splitQuery
  cases hb : breakAt '?' u with
  | none => exact List.prefix_refl u
  | some p =>
    have := (breakAt_eq_some '?' u p.1 p.2 (by rw [hb])).1
    exact ⟨'?' :: p.2, this.symm⟩

theorem splitParams_pre (p : List Char) : (splitParams p).1 <+: p := by
  unfold splitParams
  by_cases hc : p.contains '/'
  · rw [if_pos hc]
    cases hb : breakAt ';' ((p.reverse.takeWhile (fun c => ¬ (c = '/'))).reverse) with
    | none => exact List.prefix_refl p
    | some q =>
      obtain ⟨a, b⟩ := q
      dsimp only
      have hq := (breakAt_eq_some ';' _ a b hb).1
      refine ⟨';' :: b, ?_⟩
      rw [List.append_assoc, ← hq]
      rw [← List.reverse_append, List.takeWhile_append_dropWhile, List.reverse_reverse]
  · rw [if_neg hc]
    cases hb : breakAt ';' p with
    | none => exact List.prefix_refl p
    | some q =>
      obtain ⟨a, b⟩ := q
      dsimp only
      have hq := (breakAt_eq_some ';' p a b hb).1
      exact ⟨';' :: b, hq.symm⟩

theorem urlparse_path_not_hash (u : List Char) : '#' ∉ (urlparse u).path := by
  intro hm
  have h1 : (urlparse u).path <+: (splitQuery (splitFragment (splitNetloc (splitScheme u).2).2).1).1 :=
    splitParams_pre _
  have h2 := (splitQuery_pre (splitFragment (splitNetloc (splitScheme u).2).2).1).subset
    (h1.subset hm)
  exact splitFragment_not_mem _ h2

theorem urlparse_path_not_quest (u : List Char) : '?' ∉ (urlparse u).path := by
  intro hm
  exact splitQuery_not_mem _ ((splitParams_pre _).subset hm)

theorem cleanPathOf_mem (p : List Char) (c : Char) (hc : c ∈ cleanPathOf p) : c ∈ p := by
  unfold cleanPathOf at hc
  exact (takeBeforeSub_pre slashRef p).subset ((rstripChar_pre '/' _).subset hc)

theorem not_infix_cleanPathOf (p : List Char) : ¬ slashRef <:+: cleanPathOf p := by
  intro hi
  apply not_infix_takeBeforeSub slashRef p (by simp [slashRef])
  exact hi.trans ( List.IsPrefix.isInfix (rstripChar_pre '/' _))

theorem cleanPathOf_getLast (p : List Char) : (cleanPathOf p).getLast? ≠ some '/' :=
  rstripChar_getLast '/' _

/-- `clean_url` always rebuilds `scheme ++ "://" ++ netloc ++ cleanedPath ++ "/"`:
the cleaned path never ends in `/`, so the trailing slash is always appended. -/
theorem clean_url_eq (u : List Char) :
    clean_url u = (urlparse u).scheme ++ [':', '/', '/'] ++ (urlparse u).netloc ++
      cleanPathOf (urlparse u).path ++ ['/'] := by
  unfold clean_url
  have h : endsWithSlash (cleanPathOf (urlparse u).path) = false := by
    unfold endsWithSlash
    simpa using cleanPathOf_getLast (urlparse u).path
  simp [h]

theorem takeWhile_sat_append (p : Char → Bool) (l₁ l₂ : List Char)
    (h : ∀ c ∈ l₁, p c = true) :
    (l₁ ++ l₂).takeWhile p = l₁ ++ l₂.takeWhile p ∧
      (l₁ ++ l₂).dropWhile p = l₂.dropWhile p := by
  induction l₁ with
  | nil => simp
  | cons c rest ih =>
    have hc := h c (List.mem_cons_self c rest)
    have ih2 := ih (fun x hx => h x (List.mem_cons_of_mem c hx))
    simp [List.takeWhile_cons, List.dropWhile_cons, hc, ih2.1, ih2.2]

/-- Decomposition of netloc-style takeWhile/dropWhile over `cp ++ "/"` when
`cp` has no `?`/`#`: the scan takes the part `A` of `cp` before its first `/`;
the rest `B` of `cp` (a suffix starting with `/`, or empty) plus the final `/`
remains. -/
theorem netloc_split (cp : List Char) (hq : '?' ∉ cp) (hh : '#' ∉ cp) :
    ∃ A B, cp = A ++ B ∧
      (cp ++ ['/']).takeWhile (fun c => ! netlocEnd c) = A ∧
      (cp ++ ['/']).dropWhile (fun c => ! netlocEnd c) = B ++ ['/'] ∧
      B <:+ cp := by
  induction cp with
  | nil =>
    refine ⟨[], [], rfl, ?_, ?_, List.suffix_refl []⟩ <;>
      simp [List.takeWhile_cons, List.dropWhile_cons, netlocEnd]
  | cons c rest ih =>
    have hq2 : '?' ∉ rest := fun hm => hq (List.mem_cons_of_mem c hm)
    have hh2 : '#' ∉ rest := fun hm => hh (List.mem_cons_of_mem c hm)
    by_cases hc : netlocEnd c = true
    · have hcs : c = '/' := by
        unfold netlocEnd at hc
        simp only [Bool.or_eq_true, decide_eq_true_eq] at hc
        rcases hc with (h1 | h2) | h3
        · exact h1
        · exact absurd (h2 ▸ List.mem_cons_self c rest) hq
        · exact absurd (h3 ▸ List.mem_cons_self c rest) hh
      refine ⟨[], c :: rest, rfl, ?_, ?_, List.suffix_refl _⟩
      · simp [List.takeWhile_cons, hc]
      · simp [List.dropWhile_cons, hc]
    · obtain ⟨A, B, hab, hta, hdb, hsuf⟩ := ih hq2 hh2
      refine ⟨c :: A, B, by rw [hab, List.cons_append], ?_, ?_,
        hsuf.trans (List.suffix_cons c rest)⟩
      · simp only [List.cons_append, List.takeWhile_cons]
        rw [if_pos (by simp [hc]), hta]
      · simp only [List.cons_append, List.dropWhile_cons]
        rw [if_pos (by simp [hc]), hdb]

theorem splitNetloc_slash (rest : List Char) :
    splitNetloc ('/' :: '/' :: rest) =
      (rest.takeWhile (fun c => ! netlocEnd c), rest.dropWhile (fun c => ! netlocEnd c)) :=
  rfl

theorem not_infix_append_slash (s : List Char) (h : ¬ slashRef <:+: s) :
    ¬ slashRef <:+: (s ++ ['/']) := by
  intro hi
  obtain ⟨x, y, hxy⟩ := hi
  rcases List.eq_nil_or_concat y with hy | ⟨ys, a, hy⟩
  · subst hy
    rw [List.append_nil] at hxy
    have h1 : (x ++ slashRef).getLast? = some 'f' := by
      rw [List.getLast?_append_of_ne_nil x (by simp [slashRef])]
      rfl
    have h2 : (s ++ ['/']).getLast? = some '/' := List.getLast?_concat s
    rw [hxy] at h1
    rw [h1] at h2
    simp at h2
  · subst hy
    rw [List.concat_eq_append, ← List.append_assoc] at hxy
    have hinj := List.append_inj' hxy (by simp)
    exact h ⟨x, ys, hinj.1⟩

theorem suffix_getLast (l s : List Char) (h : s <:+ l) (hne : s ≠ []) :
    s.getLast? = l.getLast? := by
  obtain ⟨t, ht⟩ := h
  rw [← ht, List.getLast?_append_of_ne_nil t hne]

/-- Core step: a string of the exact shape `clean_url` produces, built from a
valid normalized scheme, a netloc free of netloc-ending characters, and a
cleaned path free of `?`, `#`, `"/ref"` occurrences and trailing `/`,
is a fixed point of `clean_url`. -/
theorem clean_url_fixed (s n cp : List Char)
    (hs : schemeOk s)
    (hn : ∀ c ∈ n, netlocEnd c = false)
    (hq : '?' ∉ cp) (hh : '#' ∉ cp)
    (hr : ¬ slashRef <:+: cp)
    (hl : cp.getLast? ≠ some '/') :
    clean_url (s ++ [':', '/', '/'] ++ n ++ cp ++ ['/']) =
      s ++ [':', '/', '/'] ++ n ++ cp ++ ['/'] := by
  obtain ⟨hs0, hs1, hs2, hs3⟩ := hs
  have hscol : ':' ∉ s := by
    intro hm
    rw [List.all_eq_true] at hs2
    exact schemeChar_ne_colon ':' (hs2 ':' hm) rfl
  -- the parsed components of the rebuilt URL
  have hshape : s ++ [':', '/', '/'] ++ n ++ cp ++ ['/'] =
      s ++ ':' :: ('/' :: '/' :: (n ++ cp ++ ['/'])) := by
    simp
  have hbreak : breakAt ':' (s ++ [':', '/', '/'] ++ n ++ cp ++ ['/']) =
      some (s, '/' :: '/' :: (n ++ cp ++ ['/'])) := by
    rw [hshape]
    exact breakAt_append ':' s _ hscol
  have hsch : splitScheme (s ++ [':', '/', '/'] ++ n ++ cp ++ ['/']) =
      (s, '/' :: '/' :: (n ++ cp ++ ['/'])) := by
    unfold splitScheme
    rw [hbreak]
    cases s with
    | nil => exact absurd rfl hs0
    | cons c cs =>
      dsimp only
      rw [if_pos, hs3]
      rw [Bool.and_eq_true]
      exact ⟨by simpa using hs1, hs2⟩
  obtain ⟨A, B, hab, hta, hdb, hsuf⟩ := netloc_split cp hq hh
  have hsat : ∀ c ∈ n, (! netlocEnd c) = true := fun c hc => by rw [hn c hc]; rfl
  have hnet : splitNetloc ('/' :: '/' :: (n ++ cp ++ ['/'])) = (n ++ A, B ++ ['/']) := by
    rw [splitNetloc_slash, List.append_assoc]
    obtain ⟨ht, hd⟩ := takeWhile_sat_append (fun c => ! netlocEnd c) n (cp ++ ['/']) hsat
    rw [ht, hd, hta, hdb]
  have hBh : '#' ∉ B ++ ['/'] := by
    intro hm
    rcases List.mem_append.mp hm with hm | hm
    · exact hh (hsuf.subset hm)
    · simp at hm
  have hBq : '?' ∉ B ++ ['/'] := by
    intro hm
    rcases List.mem_append.mp hm with hm | hm
    · exact hq (hsuf.subset hm)
    · simp at hm
  have hfr : splitFragment (B ++ ['/']) = (B ++ ['/'], []) := by
    unfold splitFragment
    rw [breakAt_eq_none '#' _ hBh]
  have hqu : splitQuery (B ++ ['/']) = (B ++ ['/'], []) := by
    unfold splitQuery
    rw [breakAt_eq_none '?' _ hBq]
  have hpar : splitParams (B ++ ['/']) = (B ++ ['/'], []) := by
    unfold splitParams
    rw [if_pos (by simp)]
    have hrev : (B ++ ['/']).reverse = '/' :: B.reverse := by simp
    rw [hrev]
    rw [List.takeWhile_cons]
    rw [if_neg (by simp)]
    rfl
  have hup : urlparse (s ++ [':', '/', '/'] ++ n ++ cp ++ ['/']) =
      ⟨s, n ++ A, B ++ ['/'], [], [], []⟩ := by
    unfold urlparse
    rw [hsch]
    dsimp only
    rw [hnet]
    dsimp only
    rw [hfr]
    dsimp only
    rw [hqu]
    dsimp only
    rw [hpar]
  have hBlast : B.getLast? ≠ some '/' := by
    cases hB : B with
    | nil => simp
    | cons b bs =>
      rw [← hB, suffix_getLast cp B hsuf (by rw [hB]; simp)]
      exact hl
  have hBinf : ¬ slashRef <:+: B ++ ['/'] := by
    apply not_infix_append_slash
    intro hi
    exact hr (hi.trans ( List.IsSuffix.isInfix hsuf))
  have hcp : cleanPathOf (B ++ ['/']) = B := by
    unfold cleanPathOf
    rw [takeBeforeSub_of_no_occurrence slashRef _ hBinf, rstripChar_append '/' B hBlast]
  rw [clean_url_eq, hup]
  dsimp only
  rw [hcp, hab]
  simp

/-- Idempotence of `clean_url` for every input whose parse has a (nonempty)
scheme — in particular every `http(s)://...` URL. -/
theorem clean_url_idem (u : List Char) (h : (urlparse u).scheme ≠ []) :
    clean_url (clean_url u) = clean_url u := by
  rw [clean_url_eq u]
  have hsch : (urlparse u).scheme = (splitScheme u).1 := rfl
  apply clean_url_fixed
  · rw [hsch]
    exact schemeOk_of_splitScheme u (by rw [← hsch]; exact h)
  · intro c hc
    exact splitNetloc_mem _ c hc
  · intro hm
    exact urlparse_path_not_quest u (cleanPathOf_mem _ _ hm)
  · intro hm
    exact urlparse_path_not_hash u (cleanPathOf_mem _ _ hm)
  · exact not_infix_cleanPathOf _
  · exact cleanPathOf_getLast _

theorem scrape_eq_ok_iff (dp : String → Option String) (p : Page) (u : String)
    (r : Record) :
    scrape_amazon_product dp p u = .ok r ↔
      check_for_captcha p.source = false ∧
      ∃ vpl vr vn, extractPrintLength p = .ok vpl ∧ extractRating p = .ok vr ∧
        extractNumRatings p = .ok vn ∧
        r = { url := .str (cleanUrlS u), title := extractTitle p,
              author := extractAuthor p, format := extractFormat p,
              summary := extractSummary p, printLength := vpl,
              asin := extractAsin p, publisher := extractPublisher p,
              pubDate := extractPubDate dp p, bestSellersRank := extractRank p,
              rating := vr, numRatings := vn,
              goodreadsRating := (goodreadsExtract p.goodreads).1,
              goodreadsNumRatings := (goodreadsExtract p.goodreads).2 } := by
  unfold scrape_amazon_product
  by_cases hc : check_for_captcha p.source
  · simp [hc]
  · cases hpl : extractPrintLength p <;> cases hrt : extractRating p <;>
      cases hnr : extractNumRatings p <;>
      simp [hc, hpl, hrt, hnr, Bind.bind, Except.bind, Pure.pure, Except.pure, eq_comm]

theorem scrape_raised_of_rating (dp : String → Option String) (p : Page) (u : String)
    (hc : check_for_captcha p.source = false)
    (t : String) (ht : p.ratingIcon = some t) (htok : firstToken t = none) :
    scrape_amazon_product dp p u = .raised := by
  have hrt : extractRating p = .error () := by
    unfold extractRating
    rw [ht]
    simp [htok]
  unfold scrape_amazon_product
  cases hpl : extractPrintLength p <;>
    simp [hc, hpl, hrt, Bind.bind, Except.bind]

theorem retryOne_fail_all (oracle : Nat → ScrapeResult)
    (h : ∀ n, attemptFails (oracle n) = true) (i fuel : Nat) :
    retryOne oracle i fuel = (none, fuel) := by
  induction fuel generalizing i with
  | zero => rfl
  | succ f ih =>
    unfold retryOne
    cases ho : oracle i with
    | ok r =>
      have hf := h i
      rw [ho] at hf
      unfold attemptFails at hf
      have hv : is_valid_product_data r = false := by simpa using hf
      dsimp only
      rw [if_neg (by simp [hv]), ih (i + 1)]
    | captcha => dsimp only; rw [ih (i + 1)]
    | raised => dsimp only; rw [ih (i + 1)]

theorem retryOne_step_fail (oracle : Nat → ScrapeResult) (i fuel : Nat)
    (h : attemptFails (oracle i) = true) :
    retryOne oracle i (fuel + 1) =
      ((retryOne oracle (i + 1) fuel).1, (retryOne oracle (i + 1) fuel).2 + 1) := by
  rw [retryOne]
  cases ho : oracle i with
  | ok r =>
    rw [ho] at h
    unfold attemptFails at h
    have hv : is_valid_product_data r = false := by simpa using h
    dsimp only
    rw [if_neg (by simp [hv])]
  | captcha => rfl
  | raised => rfl

theorem retryOne_step_ok (oracle : Nat → ScrapeResult) (i fuel : Nat) (r : Record)
    (h : oracle i = .ok r) (hv : is_valid_product_data r = true) :
    retryOne oracle i (fuel + 1) = (some r, 1) := by
  rw [retryOne]
  rw [h]
  dsimp only
  rw [if_pos hv]

/-- C4, counterexample: `clean_url` is NOT idempotent for every URL.  For a
URL without a scheme (here the scheme-less `www.site.com/x`), Python's
`urlparse` yields an empty scheme and empty netloc, `clean_url` prepends
`"://"`, and re-cleaning the result prepends `"://"` again. -/
theorem c4_counterexample :
    cleanUrlS (cleanUrlS "www.site.com/x") ≠ cleanUrlS "www.site.com/x" := by
  decide

/-- C4 (amended): identifier normalization is idempotent for every URL whose
parse has a (nonempty) scheme — in particular every `http(s)://...` URL —
and a tracking suffix is always stripped:
`clean_url "https://site/x/ref=y" = clean_url "https://site/x/"`. -/
theorem c4_idempotent_amended :
    (∀ u : String, (urlparse u.toList).scheme ≠ [] →
      cleanUrlS (cleanUrlS u) = cleanUrlS u) ∧
    cleanUrlS "https://site/x/ref=y" = cleanUrlS "https://site/x/" := by
  constructor
  · intro u h
    exact congrArg String.mk (clean_url_idem u.toList h)
  · decide

theorem c4_idempotent_amended_witness :
    cleanUrlS (cleanUrlS "https://www.amazon.com/dp/B00X/ref=sr_1_1") =
      cleanUrlS "https://www.amazon.com/dp/B00X/ref=sr_1_1" :=
  c4_idempotent_amended.1 "https://www.amazon.com/dp/B00X/ref=sr_1_1" (by decide)

/-- C10: `clean_url` discards the query string and fragment (its output
depends only on the scheme, netloc and path of the parse — query and
fragment never reach the output), and the output always ends in `"/"`. -/
theorem c10_query_fragment_discarded :
    (∀ u1 u2 : List Char,
      (urlparse u1).scheme = (urlparse u2).scheme →
      (urlparse u1).netloc = (urlparse u2).netloc →
      (urlparse u1).path = (urlparse u2).path →
      clean_url u1 = clean_url u2) ∧
    (∀ u : List Char, (clean_url u).getLast? = some '/') := by
  constructor
  · intro u1 u2 hs hn hp
    rw [clean_url_eq, clean_url_eq, hs, hn, hp]
  · intro u
    rw [clean_url_eq]
    exact List.getLast?_concat _

theorem c10_query_fragment_discarded_witness :
    clean_url ("https://a/x?q=1".toList) = clean_url ("https://a/x#frag".toList) ∧
      (clean_url ("https://a/x?q=1".toList)).getLast? = some '/' :=
  ⟨c10_query_fragment_discarded.1 _ _ (by decide) (by decide) (by decide),
    c10_query_fragment_discarded.2 _⟩

/-- C2: `is_valid_product_data` is true iff at least 3 of the 5 designated
fields (Title, Author, Format, ASIN, Amazon Rating) are not `"#ERROR"`, and
the identifier field and all other fields do not affect the verdict. -/
theorem c2_validation_rule (r : Record) :
    (is_valid_product_data r = true ↔
      3 ≤ ((if r.title = errorV then 0 else 1) + (if r.author = errorV then 0 else 1) +
        (if r.format = errorV then 0 else 1) + (if r.asin = errorV then 0 else 1) +
        (if r.rating = errorV then 0 else 1))) ∧
    (∀ r2 : Record, r2.title = r.title → r2.author = r.author →
      r2.format = r.format → r2.asin = r.asin → r2.rating = r.rating →
      is_valid_product_data r2 = is_valid_product_data r) := by
  constructor
  · unfold is_valid_product_data
    rw [decide_eq_true_eq]
    by_cases h1 : r.title = errorV <;> by_cases h2 : r.author = errorV <;>
      by_cases h3 : r.format = errorV <;> by_cases h4 : r.asin = errorV <;>
      by_cases h5 : r.rating = errorV <;>
      simp [h1, h2, h3, h4, h5, List.countP_cons, List.countP_nil, bne_iff_ne]
  · intro r2 ht ha hf has hr
    unfold is_valid_product_data
    rw [ht, ha, hf, has, hr]

theorem c2_validation_rule_witness :
    (is_valid_product_data sampleRecord = true ↔
      3 ≤ ((if sampleRecord.title = errorV then 0 else 1) +
        (if sampleRecord.author = errorV then 0 else 1) +
        (if sampleRecord.format = errorV then 0 else 1) +
        (if sampleRecord.asin = errorV then 0 else 1) +
        (if sampleRecord.rating = errorV then 0 else 1))) ∧
    is_valid_product_data sampleRecordNoisy = is_valid_product_data sampleRecord :=
  ⟨(c2_validation_rule sampleRecord).1,
    (c2_validation_rule sampleRecord).2 _ rfl rfl rfl rfl rfl⟩

/-- C8: challenge detection is a pure function of the page content — true
exactly when the content contains the keyword `"captcha"` as a
case-insensitive substring. -/
theorem c8_captcha_pure (content : List Char) :
    check_for_captcha content = true ↔
      ∃ w, w <:+: content ∧ lowerL w = captchaKeyword := by
  unfold check_for_captcha
  rw [containsSub_iff]
  constructor
  · rintro ⟨x, y, hxy⟩
    obtain ⟨l₁, l₂, hc, hm1, hm2⟩ := List.map_eq_append_iff.mp hxy.symm
    obtain ⟨l₁a, l₁b, hc2, hm1a, hm1b⟩ := List.map_eq_append_iff.mp hm1
    exact ⟨l₁b, ⟨l₁a, l₂, by rw [hc, hc2, List.append_assoc]⟩, hm1b⟩
  · rintro ⟨w, ⟨x, y, hxy⟩, hw⟩
    refine ⟨lowerL x, lowerL y, ?_⟩
    rw [← hw]
    unfold lowerL
    rw [← List.map_append, ← List.map_append, hxy]

/-- C1: for a target in the failure list whose extraction always fails
(raises or yields an invalid record), `retry_failed_urls` with
`max_retries = 3` makes exactly 3 attempts (never more), accepts nothing for
it, and records it in the persisted failure list. -/
theorem c1_retry_bound (oracle : String → Nat → ScrapeResult) (urls : List String)
    (u : String) (hm : u ∈ urls)
    (hfail : ∀ n, oracle u n = .raised ∨
      ∃ r, oracle u n = .ok r ∧ is_valid_product_data r = false) :
    (retryOne (oracle u) 0 3).2 = 3 ∧ (retryOne (oracle u) 0 3).1 = none ∧
      ∃ l, (retry_failed_urls oracle urls 3).2 = some l ∧ u ∈ l := by
  have haf : ∀ n, attemptFails (oracle u n) = true := by
    intro n
    rcases hfail n with h | ⟨r, h, hv⟩
    · rw [h]; rfl
    · rw [h]; simp [attemptFails, hv]
  have hro : retryOne (oracle u) 0 3 = (none, 3) := retryOne_fail_all _ haf 0 3
  have hfil : u ∈ urls.filter (fun u2 => (retryOne (oracle u2) 0 3).1.isNone) := by
    rw [List.mem_filter]
    exact ⟨hm, by rw [hro]; rfl⟩
  have hne : (urls.filter (fun u2 => (retryOne (oracle u2) 0 3).1.isNone)).isEmpty = false := by
    have h3 := List.ne_nil_of_mem hfil
    simpa [List.isEmpty_iff] using h3
  refine ⟨by rw [hro], by rw [hro], ?_⟩
  unfold retry_failed_urls
  dsimp only
  rw [hne]
  exact ⟨_, by simp, hfil⟩

theorem c1_retry_bound_witness :
    (retryOne (oracleFail "u1") 0 3).2 = 3 ∧ (retryOne (oracleFail "u1") 0 3).1 = none ∧
      ∃ l, (retry_failed_urls oracleFail ["u1"] 3).2 = some l ∧ "u1" ∈ l :=
  c1_retry_bound oracleFail ["u1"] "u1" (by simp) (fun _ => Or.inl rfl)

/-- C5: a target whose extraction fails on the first two retry attempts and
yields a valid record on the third is accepted (record appended), gets no
further attempts (exactly 3 attempts are made even when `max_retries ≥ 3`),
and is absent from the persisted failure list. -/
theorem c5_retry_success (oracle : String → Nat → ScrapeResult) (urls : List String)
    (u : String) (r : Record) (hm : u ∈ urls)
    (h0 : attemptFails (oracle u 0) = true) (h1 : attemptFails (oracle u 1) = true)
    (h2 : oracle u 2 = .ok r) (hv : is_valid_product_data r = true)
    (m : Nat) (hm3 : 3 ≤ m) :
    retryOne (oracle u) 0 m = (some r, 3) ∧
      (u, r) ∈ (retry_failed_urls oracle urls m).1 ∧
      ∀ l, (retry_failed_urls oracle urls m).2 = some l → u ∉ l := by
  obtain ⟨k, hk⟩ := Nat.exists_eq_add_of_le hm3
  subst hk
  rw [Nat.add_comm]
  have e2 : retryOne (oracle u) 2 (k + 1) = (some r, 1) :=
    retryOne_step_ok (oracle u) 2 k r h2 hv
  have e1 : retryOne (oracle u) 1 (k + 2) = (some r, 2) := by
    rw [retryOne_step_fail (oracle u) 1 (k + 1) h1, e2]
  have e0 : retryOne (oracle u) 0 (k + 3) = (some r, 3) := by
    rw [retryOne_step_fail (oracle u) 0 (k + 2) h0, e1]
  refine ⟨e0, ?_, ?_⟩
  · unfold retry_failed_urls
    dsimp only
    rw [List.mem_filterMap]
    exact ⟨u, hm, by rw [e0]; rfl⟩
  · intro l hl hmem
    unfold retry_failed_urls at hl
    dsimp only at hl
    by_cases he : (urls.filter (fun u2 => (retryOne (oracle u2) 0 (k + 3)).1.isNone)).isEmpty = true
    · rw [if_pos he] at hl
      cases hl
    · rw [if_neg he] at hl
      have hl2 := Option.some.inj hl
      subst hl2
      rw [List.mem_filter] at hmem
      rw [e0] at hmem
      simp at hmem

theorem c5_retry_success_witness :
    retryOne (oracleThird "u1") 0 3 = (some sampleRecord, 3) ∧
      ("u1", sampleRecord) ∈ (retry_failed_urls oracleThird ["u1"] 3).1 ∧
      ∀ l, (retry_failed_urls oracleThird ["u1"] 3).2 = some l → "u1" ∉ l :=
  c5_retry_success oracleThird ["u1"] "u1" sampleRecord (by simp) (by decide)
    (by decide) (by decide) (by decide) 3 (by decide)

/-- C3, counterexample: the fourteen extraction rules are NOT mutually
isolated.  On a page whose rating element is present with empty text, the
rating rule's `.split()[0]` raises an uncaught `IndexError` that aborts the
whole extraction (no record at all, the target errors), instead of setting
the rating field to the error sentinel while the other rules proceed —
which is exactly what happens when the same element is merely absent. -/
theorem c3_counterexample :
    scrape_amazon_product dpNone samplePageEmptyRating "https://a/x" =
      ScrapeResult.raised ∧
    scrape_amazon_product dpNone { samplePage with ratingIcon := none } "https://a/x" =
      ScrapeResult.ok { samplePageRecord with rating := errorV } := by
  constructor
  · decide
  · decide

/-- C3 (amended): a rule failure that surfaces as a caught exception or an
explicitly tested absence is isolated — it sets only that rule's field(s) to
that rule's failure sentinel (`"#ERROR"` for title, author, format, rank,
rating, rating count and the Goodreads pair; `"NA"` for summary, print
length, ASIN, publisher, publication date) and every other field keeps the
value it would have had; but a present element with token-less text in the
print-length, rating, or rating-count rule raises an uncaught `IndexError`
that aborts the entire extraction. -/
theorem c3_field_isolation_amended :
    (∀ (dp : String → Option String) (u : String) (p : Page) (f : Rule) (r : Record),
      scrape_amazon_product dp p u = .ok r →
      scrape_amazon_product dp (failAt p f) u = .ok (ruleSentinel r f)) ∧
    (∀ (dp : String → Option String) (u : String) (p : Page) (t : String),
      check_for_captcha p.source = false → p.ratingIcon = some t →
      firstToken t = none → scrape_amazon_product dp p u = .raised) := by
  constructor
  · intro dp u p f r h
    rw [scrape_eq_ok_iff] at h
    obtain ⟨hcap, vpl, vr, vn, hpl, hrt, hnr, hr⟩ := h
    subst hr
    rw [scrape_eq_ok_iff]
    cases f
    case goodreads => exact ⟨hcap, vpl, vr, vn, hpl, hrt, hnr, rfl⟩
    case title => exact ⟨hcap, vpl, vr, vn, hpl, hrt, hnr, rfl⟩
    case author => exact ⟨hcap, vpl, vr, vn, hpl, hrt, hnr, rfl⟩
    case format => exact ⟨hcap, vpl, vr, vn, hpl, hrt, hnr, rfl⟩
    case summary => exact ⟨hcap, vpl, vr, vn, hpl, hrt, hnr, rfl⟩
    case printLength => exact ⟨hcap, naV, vr, vn, rfl, hrt, hnr, rfl⟩
    case asin => exact ⟨hcap, vpl, vr, vn, hpl, hrt, hnr, rfl⟩
    case publisher => exact ⟨hcap, vpl, vr, vn, hpl, hrt, hnr, rfl⟩
    case pubDate => exact ⟨hcap, vpl, vr, vn, hpl, hrt, hnr, rfl⟩
    case rank => exact ⟨hcap, vpl, vr, vn, hpl, hrt, hnr, rfl⟩
    case rating => exact ⟨hcap, vpl, errorV, vn, hpl, rfl, hnr, rfl⟩
    case numRatings => exact ⟨hcap, vpl, vr, errorV, hpl, hrt, rfl, rfl⟩
  · intro dp u p t hc ht htok
    exact scrape_raised_of_rating dp p u hc t ht htok

theorem c3_field_isolation_amended_witness :
    scrape_amazon_product dpNone (failAt samplePage Rule.author) "https://a/x" =
      ScrapeResult.ok (ruleSentinel samplePageRecord Rule.author) ∧
    scrape_amazon_product dpNone samplePageEmptyRating "https://b/y" =
      ScrapeResult.raised :=
  ⟨c3_field_isolation_amended.1 dpNone "https://a/x" samplePage Rule.author
      samplePageRecord (by decide),
    c3_field_isolation_amended.2 dpNone "https://b/y" samplePageEmptyRating ""
      (by decide) (by decide) (by decide)⟩

/-- C9: when the Goodreads block is absent both secondary rating fields get
the "not present" sentinel (`nan`), which is distinct from the error
sentinel; the error sentinel arises exactly from an exception raised while
the block is present (a failing inner lookup chain or a token-less count
text); and when the block is present and its lookups succeed, the fields
carry the extracted strings. -/
theorem c9_goodreads_sentinels (dp : String → Option String) (p : Page) (u : String)
    (r : Record) (h : scrape_amazon_product dp p u = .ok r) :
    (p.goodreads = none →
      r.goodreadsRating = Value.nan ∧ r.goodreadsNumRatings = Value.nan ∧
        Value.nan ≠ errorV) ∧
    (∀ g, p.goodreads = some g →
      (g.ratingSpanText = none ∨ g.countSpanText = none ∨
        (∃ ct, g.countSpanText = some ct ∧ firstToken (removeCommas ct) = none)) →
      r.goodreadsRating = errorV ∧ r.goodreadsNumRatings = errorV) ∧
    (∀ g rt ct tok, p.goodreads = some g → g.ratingSpanText = some rt →
      g.countSpanText = some ct → firstToken (removeCommas ct) = some tok →
      r.goodreadsRating = Value.str rt ∧ r.goodreadsNumRatings = Value.str tok) := by
  rw [scrape_eq_ok_iff] at h
  obtain ⟨hcap, vpl, vr, vn, hpl, hrt, hnr, hr⟩ := h
  subst hr
  refine ⟨?_, ?_, ?_⟩
  · intro hg
    exact ⟨by rw [hg]; rfl, by rw [hg]; rfl, by decide⟩
  · intro g hg hfail
    obtain ⟨grt, gct⟩ := g
    rw [hg]
    rcases hfail with h1 | h2 | ⟨ct, hct, htok⟩
    · dsimp only at h1
      subst h1
      cases gct <;> exact ⟨rfl, rfl⟩
    · dsimp only at h2
      subst h2
      cases grt <;> exact ⟨rfl, rfl⟩
    · dsimp only at hct
      subst hct
      cases grt with
      | none => exact ⟨rfl, rfl⟩
      | some rt => simp [goodreadsExtract, htok]
  · intro g rt ct tok hg hrt2 hct htok
    obtain ⟨grt, gct⟩ := g
    dsimp only at hrt2 hct
    subst hrt2
    subst hct
    rw [hg]
    simp [goodreadsExtract, htok]

theorem c9_goodreads_sentinels_witness :
    samplePageRecord.goodreadsRating = Value.nan ∧
      samplePageRecord.goodreadsNumRatings = Value.nan ∧ Value.nan ≠ errorV :=
  (c9_goodreads_sentinels dpNone samplePage "https://a/x" samplePageRecord
    (by decide)).1 rfl

/-- C6, counterexample: a repeated challenge signal from the extractor right
after the resolve-and-retry cycle is NOT a hard stop for the batch.  With
target `"u1"` returning the `"CAPTCHA"` sentinel from both the main scrape
and the single rescrape, the run does not abort: `"u1"` merely joins the
failure set (via the caught `TypeError` from validating the string), the
batch continues to `"u2"` (whose record is written), the retry pass runs and
the failure list is persisted. -/
theorem c6_counterexample :
    scrape_amazon envTwoCaptcha oracleFail ["u1", "u2"] ⟨[], []⟩ =
      ⟨[sampleRecord], some ["u1"], false, ["u1"]⟩ := by
  decide

/-- C6 (amended): when the extractor signals the challenge sentinel
mid-extraction, the orchestrator performs exactly one resolve-and-retry cycle
(the scrape runs exactly twice for that target); a repeated challenge signal
from the rescrape is treated as a failure of that target alone — it joins
the failure set and the batch continues; the batch-wide hard stop happens
exactly when the pre-scrape challenge check fires again right after its own
resolution cycle. -/
theorem c6_mid_extraction_challenge_amended :
    (∀ env st u, (env.preCheck1 && env.preCheck2) = false →
      env.scrape1 = ScrapeResult.captcha → env.scrape2 = ScrapeResult.captcha →
      processTarget env st u = some ({ st with failed := st.failed ++ [u] }, 2)) ∧
    (∀ env st u, processTarget env st u = none ↔
      env.preCheck1 = true ∧ env.preCheck2 = true) := by
  constructor
  · intro env st u hpre h1 h2
    unfold processTarget
    rw [hpre]
    simp [h1, h2]
  · intro env st u
    constructor
    · intro h
      unfold processTarget at h
      by_cases hp : (env.preCheck1 && env.preCheck2) = true
      · exact ⟨((Bool.and_eq_true _ _).mp hp).1, ((Bool.and_eq_true _ _).mp hp).2⟩
      · rw [if_neg (by simpa using hp)] at h
        rcases hs : (if env.scrape1 = ScrapeResult.captcha then env.scrape2
            else env.scrape1) with _ | _ | r <;> rw [hs] at h
        · cases h
        · cases h
        · dsimp only at h
          by_cases hv : is_valid_product_data r = true
          · rw [if_pos hv] at h
            cases h
          · rw [if_neg hv] at h
            cases h
    · rintro ⟨h1, h2⟩
      unfold processTarget
      rw [if_pos (by rw [h1, h2]; rfl)]

theorem c6_mid_extraction_challenge_amended_witness :
    processTarget ⟨false, false, ScrapeResult.captcha, ScrapeResult.captcha⟩
        ⟨[], []⟩ "u1" = some (⟨[], ["u1"]⟩, 2) ∧
      (processTarget ⟨true, true, ScrapeResult.raised, ScrapeResult.raised⟩
        ⟨[], []⟩ "u2" = none ↔ True) :=
  ⟨c6_mid_extraction_challenge_amended.1 ⟨false, false, .captcha, .captcha⟩
      ⟨[], []⟩ "u1" rfl rfl rfl,
    by
      rw [c6_mid_extraction_challenge_amended.2]
      simp⟩

/-- C7, counterexample: when the batch-fatal condition fires (challenge
detected again right after a resolution attempt), the accumulated failure
set is NOT persisted.  Target `"u1"` has already joined the failure set when
`"u2"` triggers the repeated pre-scrape challenge; the run returns with
`"u1"` in the in-memory failure set but with no persisted failure list
(`retry_failed_urls`, which performs the only write of the failure file, is
skipped by the `return "CAPTCHA"`). -/
theorem c7_counterexample :
    scrape_amazon envAbort oracleFail ["u1", "u2"] ⟨[], []⟩ =
      ⟨[], none, true, ["u1"]⟩ := by
  decide

/-- C7 (amended): on the batch-fatal condition the run terminates at once,
keeping the output rows appended so far (each accepted record was already
appended when accepted), but the failure set accumulated so far is not
persisted: the remaining targets, the retry pass and the durable
failure-list write are all skipped. -/
theorem c7_flush_amended (env : String → TargetEnv)
    (roracle : String → Nat → ScrapeResult) (u : String) (rest : List String)
    (st : BatchState) (h : processTarget (env u) st u = none) :
    scrape_amazon env roracle (u :: rest) st =
      ⟨st.written, none, true, st.failed⟩ := by
  rw [scrape_amazon, h]

theorem c7_flush_amended_witness :
    scrape_amazon envAbort oracleFail ["u2"] ⟨[sampleRecord], ["u1"]⟩ =
      ⟨[sampleRecord], none, true, ["u1"]⟩ :=
  c7_flush_amended envAbort oracleFail "u2" [] ⟨[sampleRecord], ["u1"]⟩ (by decide)

end AmazonScraper

